import Mathlib

/-!
Verification of `cyhhao/etherscan-contract-fetcher` (`src/etherscan.js`)
against its natural-language specification.

The embedding models the JavaScript value domain needed by the code:
JSON values produced by `JSON.parse` / the Etherscan API, JavaScript
truthiness, strict equality against string literals, property access,
`Object.entries`, and Node's `path.join`.  Strings are modelled at the
code-point level (JavaScript indexes UTF-16 code units; all inputs of
interest are ASCII, where the two coincide).
-/

/-- Left brace character, written via its code point. -/
def lbrace : Char := Char.ofNat 123

/-- Right brace character, written via its code point. -/
def rbrace : Char := Char.ofNat 125

/-- JSON values, as produced by `JSON.parse`.  Numbers are kept exactly as
a decimal mantissa `m` and power-of-ten exponent `e` (value `m * 10 ^ e`);
no claim depends on floating-point rounding.  Objects are ordered lists of
key/value pairs in insertion order (duplicate keys are collapsed by the
parser, keeping the last value at the first occurrence's position, as
`JSON.parse` does). -/
inductive Json where
  | null : Json
  | bool (b : Bool) : Json
  | num (m : Int) (e : Int) : Json
  | str (s : String) : Json
  | arr (xs : List Json) : Json
  | obj (fields : List (String × Json)) : Json

/-- JavaScript truthiness of a JSON value (`undefined` is handled by
`truthyOpt`).  `NaN` cannot arise from `JSON.parse`. -/
def jsTruthy : Json → Bool
  | .null => false
  | .bool b => b
  | .num m _ => m != 0
  | .str s => s != ""
  | .arr _ => true
  | .obj _ => true

/-- Truthiness where `none` models the JavaScript `undefined`. -/
def truthyOpt : Option Json → Bool
  | none => false
  | some j => jsTruthy j

/-- Is this value `null`?  (Property access on `null` throws in JS.) -/
def Json.isNull : Json → Bool
  | .null => true
  | _ => false

/-- Field lookup in an object field list (first match). -/
def lookupField : List (String × Json) → String → Option Json
  | [], _ => none
  | (k, v) :: rest, key => if k == key then some v else lookupField rest key

/-- Property access `j.key`, with `none` modelling `undefined`.
Primitives and arrays have no modelled own properties. -/
def jsField : Json → String → Option Json
  | .obj fs, key => lookupField fs key
  | _, _ => none

/-- Property access that throws a `TypeError` on `null` (as JavaScript
does); `Except.error` models the thrown exception. -/
def jsFieldE : Json → String → Except Unit (Option Json)
  | .null, _ => .error ()
  | j, key => .ok (jsField j key)

/-- JavaScript strict equality `x === "lit"` against a string literal:
true only for an identical string. -/
def strictEqStr : Option Json → String → Bool
  | some (.str t), s => t == s
  | _, _ => false

/-- Property assignment `obj.key = v`: replace in place if the key exists,
else append (JS insertion-order semantics). -/
def setFieldList : List (String × Json) → String → Json → List (String × Json)
  | [], k, v => [(k, v)]
  | (k0, v0) :: rest, k, v =>
      if k0 == k then (k0, v) :: rest else (k0, v0) :: setFieldList rest k v

/-- `j.key = v` on a JSON value; assignment to a non-object is unreachable
in the modelled code paths and leaves the value unchanged. -/
def jsSetField : Json → String → Json → Json
  | .obj fs, k, v => .obj (setFieldList fs k v)
  | j, _, _ => j

/-- `x || d` for a possibly-`undefined` value: keep `x` when truthy,
otherwise the default. -/
def jsOrJ (a : Option Json) (d : Json) : Json :=
  match a with
  | some v => if jsTruthy v then v else d
  | none => d

/-- `x || null` (used for `contract.Implementation || null`). -/
def jsOrNullJ (a : Option Json) : Json := jsOrJ a .null

/-- `Object.entries` on the values reachable in the code: an object's own
entries; an array's index/value pairs; a string's index/character pairs;
primitives have none.  (`null` is excluded by truthiness guards before
every call site.) -/
def natToStrAux : Nat → Nat → List Char → List Char
  | 0, _, acc => acc
  | fuel + 1, n, acc =>
      let d := Char.ofNat (48 + n % 10)
      if n < 10 then d :: acc else natToStrAux fuel (n / 10) (d :: acc)

/-- Decimal rendering of a natural number (kernel-reducible). -/
def natToStr (n : Nat) : String := String.mk (natToStrAux (n + 1) n [])

/-- Index/value enumeration used for `Object.entries` on arrays/strings. -/
def enumPairs (f : Nat → α → String × Json) : Nat → List α → List (String × Json)
  | _, [] => []
  | i, x :: rest => f i x :: enumPairs f (i + 1) rest

/-- `Object.entries` (see `natToStrAux` doc above). -/
def jsEntries : Json → List (String × Json)
  | .obj fs => fs
  | .arr xs => enumPairs (fun i v => (natToStr i, v)) 0 xs
  | .str s => enumPairs (fun i c => (natToStr i, Json.str (String.mk [c]))) 0 s.toList
  | _ => []

/-- `.length` property: array length, string length, or an object's own
`length` field; `undefined` otherwise. -/
def jsLength : Json → Option Json
  | .arr xs => some (.num (Int.ofNat xs.length) 0)
  | .str s => some (.num (Int.ofNat s.length) 0)
  | .obj fs => lookupField fs "length"
  | _ => none

/-- Strict equality `x === 0` for the `result.length === 0` check. -/
def strictEqZero : Option Json → Bool
  | some (.num m _) => m == 0
  | _ => false

/-- Indexing `x[0]`: first array element, first character of a string, or
an object's `"0"` field; `undefined` otherwise. -/
def jsIndexZero : Json → Option Json
  | .arr [] => none
  | .arr (x :: _) => some x
  | .str s =>
      match s.toList with
      | [] => none
      | c :: _ => some (.str (String.mk [c]))
  | .obj fs => lookupField fs "0"
  | _ => none

/-- Prefix test on character lists (models `String.prototype.startsWith`). -/
def leadsWith : List Char → List Char → Bool
  | [], _ => true
  | _ :: _, [] => false
  | p :: ps, c :: cs => p == c && leadsWith ps cs

/-- Substring containment on character lists (models
`String.prototype.includes`). -/
def containsL (pat : List Char) : List Char → Bool
  | [] => pat.isEmpty
  | c :: rest => leadsWith pat (c :: rest) || containsL pat rest

/-- `s.includes(pat)` on strings. -/
def strContains (s pat : String) : Bool := containsL pat.toList s.toList

/-- `s.startsWith(pre)` on strings. -/
def strStarts (s pre : String) : Bool := leadsWith pre.toList s.toList

/-- Does the string start with a single left brace? -/
def startsLBrace (s : String) : Bool := leadsWith [lbrace] s.toList

/-- Does the string start with two left braces (the `{{` wrapper)? -/
def startsLBrace2 (s : String) : Bool := leadsWith [lbrace, lbrace] s.toList

/-- JSON whitespace. -/
def isJsonWs (c : Char) : Bool :=
  c == ' ' || c == Char.ofNat 9 || c == Char.ofNat 10 || c == Char.ofNat 13

/-- Skip JSON whitespace. -/
def skipWs : List Char → List Char
  | [] => []
  | c :: rest => if isJsonWs c then skipWs rest else c :: rest

/-- Is `c` a decimal digit? -/
def isDigitC (c : Char) : Bool := '0' ≤ c && c ≤ '9'

/-- Split off a maximal run of decimal digits. -/
def takeDigits : List Char → List Char × List Char
  | [] => ([], [])
  | c :: rest =>
      if isDigitC c then
        let (run, left) := takeDigits rest
        (c :: run, left)
      else ([], c :: rest)

/-- Numeric value of a digit run. -/
def digitsToNat : List Char → Nat → Nat
  | [], acc => acc
  | c :: rest, acc => digitsToNat rest (acc * 10 + (c.toNat - 48))

/-- Value of a hex digit, if any. -/
def hexVal (c : Char) : Option Nat :=
  if isDigitC c then some (c.toNat - 48)
  else if 'a' ≤ c && c ≤ 'f' then some (c.toNat - 87)
  else if 'A' ≤ c && c ≤ 'F' then some (c.toNat - 55)
  else none

/-- Body of a JSON string literal (after the opening quote), fueled for
structural recursion; handles the JSON escape sequences. -/
def parseStrBody : Nat → List Char → List Char → Option (String × List Char)
  | 0, _, _ => none
  | _ + 1, _, [] => none
  | fuel + 1, acc, c :: rest =>
      if c == '"' then some (String.mk acc.reverse, rest)
      else if c == '\\' then
        match rest with
        | [] => none
        | e :: rest2 =>
            if e == '"' || e == '\\' || e == '/' then parseStrBody fuel (e :: acc) rest2
            else if e == 'b' then parseStrBody fuel (Char.ofNat 8 :: acc) rest2
            else if e == 'f' then parseStrBody fuel (Char.ofNat 12 :: acc) rest2
            else if e == 'n' then parseStrBody fuel (Char.ofNat 10 :: acc) rest2
            else if e == 'r' then parseStrBody fuel (Char.ofNat 13 :: acc) rest2
            else if e == 't' then parseStrBody fuel (Char.ofNat 9 :: acc) rest2
            else if e == 'u' then
              match rest2 with
              | h1 :: h2 :: h3 :: h4 :: rest3 =>
                  match hexVal h1, hexVal h2, hexVal h3, hexVal h4 with
                  | some a, some b, some cc, some d =>
                      parseStrBody fuel (Char.ofNat (((a * 16 + b) * 16 + cc) * 16 + d) :: acc) rest3
                  | _, _, _, _ => none
              | _ => none
            else none
      else if c.toNat < 32 then none
      else parseStrBody fuel (c :: acc) rest

/-- A JSON number literal: optional sign, integer part (no leading
zeros), optional fraction and exponent.  Result is mantissa/exponent. -/
def parseNumBody (cs : List Char) : Option (Json × List Char) :=
  let (neg, cs1) :=
    match cs with
    | '-' :: rest => (true, rest)
    | _ => (false, cs)
  match cs1 with
  | [] => none
  | d :: _ =>
      if !isDigitC d then none
      else
        let (intRun, cs2) := takeDigits cs1
        -- JSON forbids leading zeros in a multi-digit integer part
        if intRun.length > 1 && intRun.headD '0' == '0' then none
        else
          let (fracRun, cs3) :=
            match cs2 with
            | '.' :: rest =>
                let (run, left) := takeDigits rest
                (run, left)
            | _ => ([], cs2)
          -- a '.' must be followed by at least one digit
          if (match cs2 with | '.' :: _ => fracRun.isEmpty | _ => false) then none
          else
            let expoPart : Option (Int × List Char) :=
              match cs3 with
              | e :: rest =>
                  if e == 'e' || e == 'E' then
                    let (esign, rest2) :=
                      match rest with
                      | '+' :: r => ((1 : Int), r)
                      | '-' :: r => ((-1 : Int), r)
                      | _ => ((1 : Int), rest)
                    let (erun, rest3) := takeDigits rest2
                    if erun.isEmpty then none
                    else some (esign * Int.ofNat (digitsToNat erun 0), rest3)
                  else some (0, cs3)
              | [] => some (0, cs3)
            match expoPart with
            | none => none
            | some (expo, csEnd) =>
                let mantNat := digitsToNat (intRun ++ fracRun) 0
                let mant : Int := if neg then -(Int.ofNat mantNat) else Int.ofNat mantNat
                some (.num mant (expo - Int.ofNat fracRun.length), csEnd)

/-- Parser modes: a value, array items, or object members (with the
accumulated prefix and a flag allowing an immediate closing bracket). -/
inductive PMode where
  | pv : PMode
  | pa (acc : List Json) (first : Bool) : PMode
  | po (acc : List (String × Json)) (first : Bool) : PMode

/-- The recursive core of the `JSON.parse` model, structurally recursive
on fuel so that it evaluates inside the kernel. -/
def pstep : Nat → PMode → List Char → Option (Json × List Char)
  | 0, _, _ => none
  | fuel + 1, .pv, cs =>
      match skipWs cs with
      | [] => none
      | c :: rest =>
          if c == lbrace then pstep fuel (.po [] true) rest
          else if c == '[' then pstep fuel (.pa [] true) rest
          else if c == '"' then
            match parseStrBody (rest.length + 1) [] rest with
            | some (s, rest2) => some (.str s, rest2)
            | none => none
          else if c == 't' then
            match rest with
            | 'r' :: 'u' :: 'e' :: rest2 => some (.bool true, rest2)
            | _ => none
          else if c == 'f' then
            match rest with
            | 'a' :: 'l' :: 's' :: 'e' :: rest2 => some (.bool false, rest2)
            | _ => none
          else if c == 'n' then
            match rest with
            | 'u' :: 'l' :: 'l' :: rest2 => some (.null, rest2)
            | _ => none
          else if c == '-' || isDigitC c then parseNumBody (c :: rest)
          else none
  | fuel + 1, .pa acc first, cs =>
      match skipWs cs with
      | [] => none
      | c :: rest =>
          if first && acc.isEmpty && c == ']' then some (.arr [], rest)
          else
            match pstep fuel .pv (c :: rest) with
            | none => none
            | some (v, rest1) =>
                match skipWs rest1 with
                | ',' :: rest2 => pstep fuel (.pa (acc ++ [v]) false) rest2
                | d :: rest2 =>
                    if d == ']' then some (.arr (acc ++ [v]), rest2) else none
                | [] => none
  | fuel + 1, .po acc first, cs =>
      match skipWs cs with
      | [] => none
      | c :: rest =>
          if first && acc.isEmpty && c == rbrace then some (.obj [], rest)
          else if c == '"' then
            match parseStrBody (rest.length + 1) [] rest with
            | none => none
            | some (k, rest1) =>
                match skipWs rest1 with
                | ':' :: rest2 =>
                    match pstep fuel .pv rest2 with
                    | none => none
                    | some (v, rest3) =>
                        match skipWs rest3 with
                        | ',' :: rest4 => pstep fuel (.po (setFieldList acc k v) false) rest4
                        | d :: rest4 =>
                            if d == rbrace then some (.obj (setFieldList acc k v), rest4)
                            else none
                        | [] => none
                | _ => none
          else none

/-- Model of `JSON.parse`: parse one value and require only trailing
whitespace after it; `none` models the thrown `SyntaxError`. -/
def jparse (s : String) : Option Json :=
  match pstep (3 * s.toList.length + 9) .pv s.toList with
  | some (v, rest) => if (skipWs rest).isEmpty then some v else none
  | none => none

/-- Match of the anchored regex `^solc_[\d.]+\//` on a character list:
`solc_`, a non-empty run of digits and dots, then a slash.  Returns the
remainder after the match. -/
def solcMatch : List Char → Option (List Char)
  | 's' :: 'o' :: 'l' :: 'c' :: '_' :: rest =>
      let isRunC : Char → Bool := fun c => isDigitC c || c == '.'
      let rec span : List Char → List Char × List Char
        | [] => ([], [])
        | c :: cs =>
            if isRunC c then
              let (run, left) := span cs
              (c :: run, left)
            else ([], c :: cs)
      match span rest with
      | ([], _) => none
      | (_ :: _, '/' :: tail) => some tail
      | (_ :: _, _) => none
  | _ => none

/-- `filePath.replace(/^solc_[\d.]+\//, '')` from `parseSourceCode`
(src/etherscan.js lines 162-164 and 184-186). -/
def stripSolc (p : String) : String :=
  match solcMatch p.toList with
  | some rest => String.mk rest
  | none => p

/-- A decoded source file: the relative path written under the output
root, and its content (a JSON value: the code reads `content.content`
without checking it is a string). -/
structure DecodedFile where
  path : String
  content : Json

/-- `content.content || ''` for one entry of the sources mapping:
property access on `null` throws (modelled by `.error`); on any other
non-object the property is `undefined`, so the result is `''`. -/
def entryContentE : Json → Except Unit Json
  | .null => .error ()
  | .obj fields => .ok (jsOrJ (lookupField fields "content") (.str ""))
  | _ => .ok (.str "")

/-- Total content extraction for non-null entries (used to state the
per-entry shape of the decoder's output). -/
def entryContent : Json → Json
  | .obj fields => jsOrJ (lookupField fields "content") (.str "")
  | _ => .str ""

/-- The decoder loop over `Object.entries(sources)` (src/etherscan.js
lines 159-169 / 181-191): push one file per entry with the solc wrapper
prefix stripped; a thrown `TypeError` (null entry) aborts the loop. -/
def decodeEntries : List (String × Json) → Except Unit (List DecodedFile)
  | [] => .ok []
  | (k, v) :: rest =>
      match entryContentE v with
      | .error _ => .error ()
      | .ok c =>
          match decodeEntries rest with
          | .error _ => .error ()
          | .ok tail => .ok (⟨stripSolc k, c⟩ :: tail)

/-- `sourceCode.slice(1, -1)`: drop the first and last character. -/
def sliceInner (s : String) : String := String.mk ((s.toList.drop 1).dropLast)

/-- The single-file fallback `[{ path: 'Contract.sol', content: sourceCode }]`. -/
def singleFallback (sourceCode : String) : List DecodedFile :=
  [⟨"Contract.sol", .str sourceCode⟩]

/-- Model of `EtherscanClient.parseSourceCode` (src/etherscan.js lines
152-200), the Source Decoder.  Double-brace input: strip one character at
each end, `JSON.parse`, enumerate `parsed.sources || {}`; any throw
(parse error or null entry) falls back to a single `Contract.sol` file
holding the whole original string.  Single-brace input: `JSON.parse`;
when `parsed.language === 'Solidity'` and `parsed.sources` is truthy,
enumerate the sources the same way; any throw or shape mismatch falls
through to the single-file default. -/
def parseSourceCode (sourceCode : String) : List DecodedFile :=
  if startsLBrace2 sourceCode then
    match jparse (sliceInner sourceCode) with
    | none => singleFallback sourceCode
    | some parsed =>
        let sources := jsOrJ (jsField parsed "sources") (.obj [])
        match decodeEntries (jsEntries sources) with
        | .ok files => files
        | .error _ => singleFallback sourceCode
  else if startsLBrace sourceCode then
    match jparse sourceCode with
    | none => singleFallback sourceCode
    | some parsed =>
        if strictEqStr (jsField parsed "language") "Solidity"
            && truthyOpt (jsField parsed "sources") then
          match jsField parsed "sources" with
          | none => singleFallback sourceCode
          | some src =>
              match decodeEntries (jsEntries src) with
              | .ok files => files
              | .error _ => singleFallback sourceCode
        else singleFallback sourceCode
  else singleFallback sourceCode

/-- Split a character list on `/`. -/
def splitSlash : List Char → List (List Char)
  | [] => [[]]
  | c :: rest =>
      let r := splitSlash rest
      if c == '/' then [] :: r
      else
        match r with
        | h :: t => (c :: h) :: t
        | [] => [[c]]

/-- One step of POSIX path normalization over a reversed segment stack. -/
def normStep (abs : Bool) (stack : List (List Char)) (seg : List Char) :
    List (List Char) :=
  if seg.isEmpty || seg == ['.'] then stack
  else if seg == ['.', '.'] then
    match stack with
    | top :: rest => if top == ['.', '.'] then seg :: stack else rest
    | [] => if abs then [] else [seg]
  else seg :: stack

/-- Join segments with `/`. -/
def joinSegs : List (List Char) → List Char
  | [] => []
  | [s] => s
  | s :: rest => s ++ '/' :: joinSegs rest

/-- Model of Node's `path.posix.join(a, b)`: concatenate with `/` and
normalize (`.` and empty segments dropped, `..` pops a segment, `..` at
an absolute root is dropped). -/
def pathJoin (a b : String) : String :=
  let joined : List Char :=
    if a.toList.isEmpty then b.toList
    else if b.toList.isEmpty then a.toList
    else a.toList ++ '/' :: b.toList
  match joined with
  | [] => "."
  | c :: _ =>
      let abs := c == '/'
      let stack := (splitSlash joined).foldl (normStep abs) []
      let core := joinSegs stack.reverse
      if abs then
        if core.isEmpty then String.mk ['/'] else String.mk ('/' :: core)
      else
        if core.isEmpty then "." else String.mk core

/-- Does `target` stay at or under the directory `root`?  (The spec's
"must not escape the output root".) -/
def staysUnderRoot (root target : String) : Bool :=
  target == root || leadsWith (root.toList ++ ['/']) target.toList

/-- The static chain registry `CHAIN_CONFIGS` (src/etherscan.js lines
13-27): chain id to display name. -/
def chainConfig : Nat → Option String
  | 1 => some "Ethereum Mainnet"
  | 56 => some "BNB Smart Chain"
  | 137 => some "Polygon"
  | 42161 => some "Arbitrum One"
  | 10 => some "Optimism"
  | 43114 => some "Avalanche C-Chain"
  | 250 => some "Fantom"
  | 8453 => some "Base"
  | 81457 => some "Blast"
  | 534352 => some "Scroll"
  | 59144 => some "Linea"
  | 11155111 => some "Sepolia Testnet"
  | 5 => some "Goerli Testnet"
  | _ => none

/-- One HTTP GET against the unified v2 endpoint, as issued through
axios: the query parameters of the request. -/
structure Request where
  chainid : Nat
  module : String
  action : String
  address : String
  tag : Option String
  apikey : String

/-- Outcome of one axios call: a resolved response (its `data` body), an
HTTP error response (axios error with `error.response`), or a network
failure with no response at all. -/
inductive AxiosOutcome where
  | ok (data : Json)
  | httpErr (status : Nat) (statusText : String)
  | netErr

/-- The client's external environment: the constructor-supplied API key
(empty string models an absent/falsy key), the content of
~/.etherscankey (`none` when unreadable), and the transport outcomes of
the two calls the client can make. -/
structure Env where
  apiKey : String
  keyFile : Option String
  getsrc : AxiosOutcome
  getcode : AxiosOutcome

/-- ASCII whitespace trim, for the `key.trim()` of the dotfile read. -/
def dropWsL : List Char → List Char
  | [] => []
  | c :: rest => if isJsonWs c then dropWsL rest else c :: rest

/-- Model of `String.prototype.trim` on ASCII whitespace. -/
def trimStr (s : String) : String :=
  String.mk ((dropWsL (dropWsL s.toList.reverse)).reverse)

/-- Model of `EtherscanClient.getApiKey` (src/etherscan.js lines 34-44):
a truthy constructor key is returned as-is; otherwise the dotfile is
read and trimmed; `none` models the thrown key error. -/
def getApiKeyM (env : Env) : Option String :=
  if env.apiKey != "" then some env.apiKey
  else
    match env.keyFile with
    | some content => some (trimStr content)
    | none => none

/-- Model of `EtherscanClient.isContract` (src/etherscan.js lines
54-86): issue `eth_getCode`; with a success status and truthy result,
the address is a contract iff the result is neither `'0x'` nor `''`;
otherwise a result of exactly `'0x'` means EOA; in every other case —
including a thrown transport error — assume it might be a contract.
`none` models the key-resolution error thrown before the try block. -/
def isContract (chainId : Nat) (address : String) (env : Env) :
    Option (Bool × List Request) :=
  match getApiKeyM env with
  | none => none
  | some key =>
      let req : Request :=
        ⟨chainId, "proxy", "eth_getCode", address, some "latest", key⟩
      match env.getcode with
      | .httpErr _ _ => some (true, [req])
      | .netErr => some (true, [req])
      | .ok data =>
          let st := jsField data "status"
          let res := jsField data "result"
          if strictEqStr st "1" && truthyOpt res then
            some ((!(strictEqStr res "0x")) && (!(strictEqStr res "")), [req])
          else if strictEqStr res "0x" then some (false, [req])
          else some (true, [req])

/-- The classified outcome of a fetch.  The JavaScript client signals
these by throwing `Error`s with distinguished messages (the spec's
`FetchOutcome` kinds); each thrown message maps to one constructor. -/
inductive FetchResult where
  | success (contract : Json)
  | keyError
  | unsupportedChain (chainId : Nat)
  | httpError (status : Nat) (statusText : String)
  | transportError
  | invalidApiKey
  | rateLimited
  | apiError (detail : Json)
  | noContractFound
  | eoaAddress (address : String)
  | unverifiedContract (address : String)
  | jsError

/-- Discriminator for the `Invalid API key` outcome. -/
def FetchResult.isInvalidApiKey : FetchResult → Bool
  | .invalidApiKey => true
  | _ => false

/-- Discriminator for the `EOA address` outcome. -/
def FetchResult.isEoa : FetchResult → Bool
  | .eoaAddress _ => true
  | _ => false

/-- `response.data.message || response.data.result || 'Failed to fetch
contract source'` (src/etherscan.js line 105). -/
def errorMsgOf (data : Json) : Json :=
  jsOrJ (jsField data "message")
    (jsOrJ (jsField data "result") (.str "Failed to fetch contract source"))

/-- Is the value strictly equal to the given string literal (used for
`Array.prototype.includes` with a string literal argument)? -/
def isStrLit (s : String) (j : Json) : Bool :=
  match j with
  | .str t => t == s
  | _ => false

/-- The error classification of src/etherscan.js lines 104-114:
substring match on the exact casings `'Invalid API Key'` /
`'invalid API key'`, then `'Max rate limit reached'`, else a generic
API error carrying the raw message.  A string message uses
`String.prototype.includes`; an array message uses
`Array.prototype.includes` (strict element equality); `.includes` on a
number, boolean or plain object is not a function, so the call throws. -/
def classifyApiFailure (errorMsg : Json) : FetchResult :=
  match errorMsg with
  | .str s =>
      if strContains s "Invalid API Key" || strContains s "invalid API key" then
        .invalidApiKey
      else if strContains s "Max rate limit reached" then .rateLimited
      else .apiError (.str s)
  | .arr xs =>
      if xs.any (isStrLit "Invalid API Key") || xs.any (isStrLit "invalid API key") then
        .invalidApiKey
      else if xs.any (isStrLit "Max rate limit reached") then .rateLimited
      else .apiError (.arr xs)
  | _ => .jsError

/-- The `proxyInfo` object attached when `contract.Proxy === '1'`
(src/etherscan.js lines 136-141). -/
def proxyInfoOf (contract : Json) : Json :=
  .obj [("isProxy", .bool true),
        ("implementation", jsOrNullJ (jsField contract "Implementation"))]

/-- Model of `EtherscanClient.fetchContractSource` (src/etherscan.js
lines 88-150).  Control flow, in source order: resolve the credential
(line 89); validate the chain id (line 90, before any network call);
issue `getsourcecode`; a non-`'1'` status is classified by message
substring (lines 104-115); a falsy or empty result array is
`noContractFound` (lines 117-119); a first entry with falsy
`SourceCode` triggers the `isContract` probe and resolves to
`eoaAddress` or `unverifiedContract` (lines 123-133); otherwise
`proxyInfo` is attached when `Proxy === '1'` (lines 136-141) and the
entry is returned.  An axios error with a response becomes an HTTP
error; one without a response is rethrown (lines 144-149).  The second
component collects the issued transport requests in order. -/
def fetchContractSource (chainId : Nat) (address : String) (env : Env) :
    FetchResult × List Request :=
  match getApiKeyM env with
  | none => (.keyError, [])
  | some key =>
      if (chainConfig chainId).isNone then (.unsupportedChain chainId, [])
      else
        let req1 : Request :=
          ⟨chainId, "contract", "getsourcecode", address, none, key⟩
        match env.getsrc with
        | .httpErr st txt => (.httpError st txt, [req1])
        | .netErr => (.transportError, [req1])
        | .ok data =>
            if !(strictEqStr (jsField data "status") "1") then
              (classifyApiFailure (errorMsgOf data), [req1])
            else if !(truthyOpt (jsField data "result"))
                || strictEqZero ((jsField data "result").bind jsLength) then
              (.noContractFound, [req1])
            else
              match jsField data "result" with
              | none => (.jsError, [req1])
              | some res =>
                  match jsIndexZero res with
                  | none => (.jsError, [req1])
                  | some contract =>
                      match jsFieldE contract "SourceCode" with
                      | .error _ => (.jsError, [req1])
                      | .ok sc =>
                          if !(truthyOpt sc) || strictEqStr sc "" then
                            match isContract chainId address env with
                            | none => (.keyError, [req1])
                            | some (isC, reqs2) =>
                                if !isC then (.eoaAddress address, req1 :: reqs2)
                                else (.unverifiedContract address, req1 :: reqs2)
                          else
                            let contract' :=
                              if strictEqStr (jsField contract "Proxy") "1" then
                                jsSetField contract "proxyInfo" (proxyInfoOf contract)
                              else contract
                            (.success contract', [req1])

/-- Model of JavaScript `parseInt` on a string: skip whitespace, optional
sign, then either `0x`-prefixed hex or leading decimal digits; no parsed
digits gives `NaN`.  `none` models `NaN`. -/
def parseIntStr (s : String) : Option Int :=
  let cs := skipWs s.toList
  let (neg, cs1) :=
    match cs with
    | '-' :: rest => (true, rest)
    | '+' :: rest => (false, rest)
    | _ => (false, cs)
  let hexDigits : List Char → Option Nat :=
    fun ds =>
      let rec go : List Char → Nat → Nat
        | [], acc => acc
        | c :: rest, acc =>
            match hexVal c with
            | some v => go rest (acc * 16 + v)
            | none => acc
        (match ds with
         | c :: _ => if (hexVal c).isSome then some (go ds 0) else none
         | [] => none)
  match cs1 with
  | 'x' :: _ => none
  | '0' :: 'x' :: rest =>
      (hexDigits rest).map (fun n => if neg then -(Int.ofNat n) else Int.ofNat n)
  | '0' :: 'X' :: rest =>
      (hexDigits rest).map (fun n => if neg then -(Int.ofNat n) else Int.ofNat n)
  | _ =>
      match takeDigits cs1 with
      | ([], _) => none
      | (run, _) =>
          let n := digitsToNat run 0
          some (if neg then -(Int.ofNat n) else Int.ofNat n)

/-- `parseInt(contract.Runs) || 0` (src/etherscan.js line 224):
`parseInt` coerces its argument to a string first; for a numeric value
this truncates toward zero; for `undefined`, `null`, booleans and plain
objects the coercion yields `NaN`, hence `0`.  (The exotic cases of
one-element arrays and exponent-rendered numbers are not modelled; no
claim touches them.) -/
def jsParseIntOr0 : Option Json → Int
  | some (.str s) =>
      match parseIntStr s with
      | some n => n
      | none => 0
  | some (.num m e) =>
      if 0 ≤ e then m * Int.ofNat (10 ^ e.toNat)
      else Int.tdiv m (Int.ofNat (10 ^ (-e).toNat))
  | _ => 0

/-- A metadata entry that `JSON.stringify` keeps only when the value is
defined (`contractName`/`compilerVersion` have no `||` default in the
code, and stringify drops keys whose value is `undefined`). -/
def optEntry (k : String) : Option Json → List (String × Json)
  | some v => [(k, v)]
  | none => []

/-- The `metadata` object written to `metadata.json` (src/etherscan.js
lines 220-236), as serialized by `JSON.stringify`: the fixed fields in
source order, plus — only when `contract.proxyInfo` is truthy — the
nested `proxyInfo` object. -/
def buildMetadata (contract : Json) : Json :=
  .obj (
    optEntry "contractName" (jsField contract "ContractName") ++
    optEntry "compilerVersion" (jsField contract "CompilerVersion") ++
    [("optimizationUsed", .bool (strictEqStr (jsField contract "OptimizationUsed") "1")),
     ("runs", .num (jsParseIntOr0 (jsField contract "Runs")) 0),
     ("evmVersion", jsOrJ (jsField contract "EVMVersion") (.str "default")),
     ("library", jsOrJ (jsField contract "Library") (.str "")),
     ("licenseType", jsOrJ (jsField contract "LicenseType") (.str "")),
     ("proxy", jsOrJ (jsField contract "Proxy") (.str "0")),
     ("implementation", jsOrJ (jsField contract "Implementation") (.str "")),
     ("swarmSource", jsOrJ (jsField contract "SwarmSource") (.str ""))] ++
    (match jsField contract "proxyInfo" with
     | some pi => if jsTruthy pi then [("proxyInfo", pi)] else []
     | none => []))

/-- The write loop of `saveContractFiles` (src/etherscan.js lines
209-217): one `fs.writeFile(path.join(localPath, file.path), ...)` per
decoded file, in order; writing a non-string content throws (`none`). -/
def writeAll (localPath : String) : List DecodedFile → Option (List String)
  | [] => some []
  | f :: rest =>
      match f.content with
      | .str _ => (writeAll localPath rest).map (fun ps => pathJoin localPath f.path :: ps)
      | _ => none

/-- Model of `EtherscanClient.saveContractFiles` (src/etherscan.js lines
202-242): decode `contract.SourceCode`, write every decoded file under
`localPath`, then write `metadata.json`; returns the written paths in
write order together with the metadata object.  `Except.error` models a
thrown error (non-string `SourceCode`, or a non-string file content
reaching `fs.writeFile`); directory creation is side-effect only. -/
def saveContractFiles (contract : Json) (localPath : String) :
    Except Unit (List String × Json) :=
  match jsField contract "SourceCode" with
  | some (.str sc) =>
      let files := parseSourceCode sc
      match writeAll localPath files with
      | none => .error ()
      | some paths =>
          .ok (paths ++ [pathJoin localPath "metadata.json"], buildMetadata contract)
  | _ => .error ()

/-- ASCII lower-casing (models `String.prototype.toLowerCase` on the
ASCII inputs of interest), used to state case-insensitive matching. -/
def lowerStr (s : String) : String := String.mk (s.toList.map Char.toLower)

theorem startsLBrace_of_double {s : String} (h : startsLBrace2 s = true) :
    startsLBrace s = true := by
  unfold startsLBrace2 startsLBrace at *
  cases hs : s.toList with
  | nil => rw [hs] at h; simp [leadsWith] at h
  | cons c cs =>
      rw [hs] at h
      simp [leadsWith] at h
      simp [leadsWith, h.1]

theorem startsLBrace2_false {s : String} (h : startsLBrace s = false) :
    startsLBrace2 s = false := by
  cases h2 : startsLBrace2 s with
  | false => rfl
  | true => rw [startsLBrace_of_double h2] at h; exact h

theorem truthyOpt_ne_empty {o : Option Json} (h : truthyOpt o = true) :
    strictEqStr o "" = false := by
  cases o with
  | none => simp [truthyOpt] at h
  | some j =>
      cases j with
      | str s =>
          simp [truthyOpt, jsTruthy] at h
          simp [strictEqStr]
          exact h
      | null => simp [truthyOpt, jsTruthy] at h
      | bool b => simp [strictEqStr]
      | num m e => simp [strictEqStr]
      | arr xs => simp [strictEqStr]
      | obj fs => simp [strictEqStr]

theorem decodeEntries_all_nonnull :
    ∀ fs : List (String × Json), fs.all (fun kv => !kv.2.isNull) = true →
      decodeEntries fs =
        .ok (fs.map (fun kv => ⟨stripSolc kv.1, entryContent kv.2⟩)) := by
  intro fs h
  induction fs with
  | nil => rfl
  | cons kv rest ih =>
      obtain ⟨k, v⟩ := kv
      rw [List.all_cons, Bool.and_eq_true] at h
      obtain ⟨h1, h2⟩ := h
      have hv : entryContentE v = .ok (entryContent v) := by
        cases v with
        | null => simp [Json.isNull] at h1
        | bool b => rfl
        | num m e => rfl
        | str s => rfl
        | arr xs => rfl
        | obj fields => rfl
      simp [decodeEntries, hv, ih h2]

/-- Claim C7: for every input string that does not start with a left
brace, decode returns exactly one DecodedFile whose path is Contract.sol
and whose content is the input string verbatim. -/
theorem decode_default_verbatim (s : String) (h : startsLBrace s = false) :
    parseSourceCode s = [⟨"Contract.sol", .str s⟩] := by
  simp [parseSourceCode, h, startsLBrace2_false h, singleFallback]

/-- Witness for C7 at the concrete input "pragma solidity 0.8.0;". -/
theorem decode_default_verbatim_witness :
    parseSourceCode "pragma solidity 0.8.0;"
      = [⟨"Contract.sol", .str "pragma solidity 0.8.0;"⟩] :=
  decode_default_verbatim "pragma solidity 0.8.0;" rfl

/-- Claim C5: decode is total (it is a Lean function on all of String;
every potentially-throwing step of the JavaScript — JSON.parse and the
null-entry property access — is modelled and caught), and it degrades on
malformed input to the opaque single-file result: a failed parse in
either JSON branch, a thrown entry access in either branch, or a
non-brace input all produce the single Contract.sol file holding the
original input. -/
theorem decode_total_degrades (s : String) :
    (startsLBrace2 s = true → jparse (sliceInner s) = none →
        parseSourceCode s = [⟨"Contract.sol", .str s⟩]) ∧
    (∀ p, startsLBrace2 s = true → jparse (sliceInner s) = some p →
        decodeEntries (jsEntries (jsOrJ (jsField p "sources") (.obj []))) = .error () →
        parseSourceCode s = [⟨"Contract.sol", .str s⟩]) ∧
    (startsLBrace2 s = false → startsLBrace s = true → jparse s = none →
        parseSourceCode s = [⟨"Contract.sol", .str s⟩]) ∧
    (∀ p src, startsLBrace2 s = false → startsLBrace s = true → jparse s = some p →
        jsField p "sources" = some src →
        decodeEntries (jsEntries src) = .error () →
        parseSourceCode s = [⟨"Contract.sol", .str s⟩]) ∧
    (startsLBrace s = false →
        parseSourceCode s = [⟨"Contract.sol", .str s⟩]) := by
  refine ⟨?_, ?_, ?_, ?_, ?_⟩
  · intro h2 hp
    simp [parseSourceCode, h2, hp, singleFallback]
  · intro p h2 hp he
    simp [parseSourceCode, h2, hp, he, singleFallback]
  · intro h2 h1 hp
    simp [parseSourceCode, h2, h1, hp, singleFallback]
  · intro p src h2 h1 hp hsrc he
    simp only [parseSourceCode, h2, h1, hp, hsrc, he]
    simp [singleFallback]
  · intro h1
    simp [parseSourceCode, h1, startsLBrace2_false h1, singleFallback]

theorem decodeEntries_err_of_null :
    ∀ fs : List (String × Json), fs.all (fun kv => !kv.2.isNull) = false →
      decodeEntries fs = .error () := by
  intro fs h
  induction fs with
  | nil => simp [List.all_nil] at h
  | cons kv rest ih =>
      obtain ⟨k, v⟩ := kv
      rw [List.all_cons] at h
      cases hA : (!v.isNull) with
      | false =>
          have hv : v = .null := by
            cases v <;> simp [Json.isNull] at hA ⊢
          subst hv
          simp [decodeEntries, entryContentE]
      | true =>
          rw [hA, Bool.true_and] at h
          have hv : entryContentE v = .ok (entryContent v) := by
            cases v with
            | null => simp [Json.isNull] at hA
            | bool b => rfl
            | num m e => rfl
            | str s => rfl
            | arr xs => rfl
            | obj fields => rfl
          simp [decodeEntries, hv, ih h]

/-- Counterexample to claim C2 as stated: for the double-brace input
whose stripped remainder parses successfully with the sources mapping
`{"A.sol": null}`, decode does not emit one file per entry (path
`A.sol`): the null entry makes `content.content` throw, and the catch
emits the single `Contract.sol` fallback holding the original string. -/
theorem decode_double_brace_null_entry_cex :
    jparse (sliceInner "\x7b\x7b\"sources\":\x7b\"A.sol\":null\x7d\x7d\x7d")
      = some (.obj [("sources", .obj [("A.sol", .null)])]) ∧
    parseSourceCode "\x7b\x7b\"sources\":\x7b\"A.sol\":null\x7d\x7d\x7d"
      = [⟨"Contract.sol", .str "\x7b\x7b\"sources\":\x7b\"A.sol\":null\x7d\x7d\x7d"⟩] ∧
    (parseSourceCode "\x7b\x7b\"sources\":\x7b\"A.sol\":null\x7d\x7d\x7d").map
        DecodedFile.path ≠ ["A.sol"] := by
  refine ⟨rfl, rfl, ?_⟩
  intro h
  exact absurd h (by decide)

/-- Claim C2 as amended: for every `{{`-prefixed input, decode parses the
inner slice (one character stripped at each end); a failed parse yields
the single `Contract.sol` file holding the entire original string; a
successful parse whose `sources` is an object mapping with no null
entries yields one DecodedFile per entry with the `solc_<version>/`
prefix stripped; a null entry makes the content access throw, which is
caught by the same fallback. -/
theorem decode_double_brace_spec (s : String) (h2 : startsLBrace2 s = true) :
    (jparse (sliceInner s) = none →
        parseSourceCode s = [⟨"Contract.sol", .str s⟩]) ∧
    (∀ p fs, jparse (sliceInner s) = some p →
        jsField p "sources" = some (.obj fs) →
        fs.all (fun kv => !kv.2.isNull) = true →
        parseSourceCode s =
          fs.map (fun kv => ⟨stripSolc kv.1, entryContent kv.2⟩)) ∧
    (∀ p fs, jparse (sliceInner s) = some p →
        jsField p "sources" = some (.obj fs) →
        fs.all (fun kv => !kv.2.isNull) = false →
        parseSourceCode s = [⟨"Contract.sol", .str s⟩]) := by
  refine ⟨?_, ?_, ?_⟩
  · intro hp
    simp [parseSourceCode, h2, hp, singleFallback]
  · intro p fs hp hsrc hall
    simp [parseSourceCode, h2, hp, hsrc, jsOrJ, jsTruthy, jsEntries,
      decodeEntries_all_nonnull fs hall]
  · intro p fs hp hsrc hnull
    simp [parseSourceCode, h2, hp, hsrc, jsOrJ, jsTruthy, jsEntries,
      decodeEntries_err_of_null fs hnull, singleFallback]

/-- Witness for C2 at the spec's own example: the wrapped standard-JSON
input decodes to a single file `Contract.sol` with content `X` and the
`solc_0.8.19/` prefix stripped. -/
theorem decode_double_brace_spec_witness :
    parseSourceCode
        "\x7b\x7b\"language\":\"Solidity\",\"sources\":\x7b\"solc_0.8.19/Contract.sol\":\x7b\"content\":\"X\"\x7d\x7d\x7d\x7d"
      = [⟨"Contract.sol", .str "X"⟩] :=
  (decode_double_brace_spec
      "\x7b\x7b\"language\":\"Solidity\",\"sources\":\x7b\"solc_0.8.19/Contract.sol\":\x7b\"content\":\"X\"\x7d\x7d\x7d\x7d"
      rfl).2.1
    (.obj [("language", .str "Solidity"),
           ("sources", .obj [("solc_0.8.19/Contract.sol", .obj [("content", .str "X")])])])
    [("solc_0.8.19/Contract.sol", .obj [("content", .str "X")])]
    rfl rfl rfl

/-- Counterexample to claim C6 as stated: for a single-brace input with
`language == "Solidity"` whose `sources` is not a mapping (an empty
array), the shape does not match, yet decode returns the empty list of
files rather than falling through to the single-file default. -/
theorem decode_single_brace_nonmapping_cex :
    jparse "\x7b\"language\":\"Solidity\",\"sources\":[]\x7d"
      = some (.obj [("language", .str "Solidity"), ("sources", .arr [])]) ∧
    parseSourceCode "\x7b\"language\":\"Solidity\",\"sources\":[]\x7d" = [] ∧
    parseSourceCode "\x7b\"language\":\"Solidity\",\"sources\":[]\x7d"
      ≠ [⟨"Contract.sol",
          .str "\x7b\"language\":\"Solidity\",\"sources\":[]\x7d"⟩] := by
  refine ⟨rfl, rfl, ?_⟩
  intro h
  exact absurd (congrArg List.length h) (by decide)

/-- Claim C6 as amended: for a single-brace (not double-brace) input, the
code requires only that the parse succeeds, `language === 'Solidity'`,
and `sources` is truthy — not that sources is a mapping.  When sources
is an object mapping with no null entries, decode emits one DecodedFile
per entry (solc prefix stripped, absent/falsy content becoming the empty
string); when the parse fails or that boolean condition is false, decode
falls to the single-file `Contract.sol` default. -/
theorem decode_single_brace_spec (s : String) (h2 : startsLBrace2 s = false)
    (h1 : startsLBrace s = true) :
    (jparse s = none → parseSourceCode s = [⟨"Contract.sol", .str s⟩]) ∧
    (∀ p, jparse s = some p →
        (strictEqStr (jsField p "language") "Solidity"
          && truthyOpt (jsField p "sources")) = false →
        parseSourceCode s = [⟨"Contract.sol", .str s⟩]) ∧
    (∀ p fs, jparse s = some p →
        jsField p "language" = some (.str "Solidity") →
        jsField p "sources" = some (.obj fs) →
        fs.all (fun kv => !kv.2.isNull) = true →
        parseSourceCode s =
          fs.map (fun kv => ⟨stripSolc kv.1, entryContent kv.2⟩)) := by
  refine ⟨?_, ?_, ?_⟩
  · intro hp
    simp [parseSourceCode, h2, h1, hp, singleFallback]
  · intro p hp hcond
    simp [parseSourceCode, h2, h1, hp, hcond, singleFallback]
  · intro p fs hp hlang hsrc hall
    simp [parseSourceCode, h2, h1, hp, hlang, hsrc, strictEqStr, truthyOpt,
      jsTruthy, jsEntries, decodeEntries_all_nonnull fs hall]

/-- Witness for C6 at the spec's own example: two files, with the
missing content field of `B.sol` defaulting to the empty string. -/
theorem decode_single_brace_spec_witness :
    parseSourceCode
        "\x7b\"language\":\"Solidity\",\"sources\":\x7b\"A.sol\":\x7b\"content\":\"a\"\x7d,\"B.sol\":\x7b\x7d\x7d\x7d"
      = [⟨"A.sol", .str "a"⟩, ⟨"B.sol", .str ""⟩] :=
  (decode_single_brace_spec
      "\x7b\"language\":\"Solidity\",\"sources\":\x7b\"A.sol\":\x7b\"content\":\"a\"\x7d,\"B.sol\":\x7b\x7d\x7d\x7d"
      rfl rfl).2.2
    (.obj [("language", .str "Solidity"),
           ("sources", .obj [("A.sol", .obj [("content", .str "a")]),
                             ("B.sol", .obj [])])])
    [("A.sol", .obj [("content", .str "a")]), ("B.sol", .obj [])]
    rfl rfl rfl rfl

/-- Claim C10: a double-brace input whose stripped remainder parses as
JSON lacking a `sources` key (or with an empty sources mapping) decodes
to the empty file list — not the single-file fallback — so save writes
only `metadata.json` and returns a one-element path list. -/
theorem decode_no_sources_empty_and_save (s out : String) (contract p : Json)
    (h2 : startsLBrace2 s = true)
    (hp : jparse (sliceInner s) = some p)
    (hsrc : jsField p "sources" = none ∨ jsField p "sources" = some (.obj []))
    (hsc : jsField contract "SourceCode" = some (.str s)) :
    parseSourceCode s = [] ∧
    saveContractFiles contract out
      = .ok ([pathJoin out "metadata.json"], buildMetadata contract) := by
  have hdec : parseSourceCode s = [] := by
    cases hsrc with
    | inl h => simp [parseSourceCode, h2, hp, h, jsOrJ, jsEntries, decodeEntries]
    | inr h =>
        simp [parseSourceCode, h2, hp, h, jsOrJ, jsTruthy, jsEntries, decodeEntries]
  refine ⟨hdec, ?_⟩
  simp [saveContractFiles, hsc, hdec, writeAll]

/-- Witness for C10 at the input whose inner slice is the empty JSON
object (no sources key at all). -/
theorem decode_no_sources_empty_and_save_witness :
    parseSourceCode "\x7b\x7b\x7d\x7d" = [] ∧
    saveContractFiles (.obj [("SourceCode", .str "\x7b\x7b\x7d\x7d")]) "/out"
      = .ok (["/out/metadata.json"],
             buildMetadata (.obj [("SourceCode", .str "\x7b\x7b\x7d\x7d")])) :=
  decode_no_sources_empty_and_save "\x7b\x7b\x7d\x7d" "/out"
    (.obj [("SourceCode", .str "\x7b\x7b\x7d\x7d")]) (.obj [])
    rfl rfl (Or.inl rfl) rfl

/-- Claim C4 fails on the code (path traversal): decode passes source
map keys through unsanitized, so a key `../evil.sol` is emitted as a
relative path, and the writer's `path.join('/out', '../evil.sol')`
resolves to `/evil.sol`, outside the output root.  This theorem
evaluates the model at that failing input. -/
theorem decode_path_escape_bug :
    parseSourceCode
        "\x7b\"language\":\"Solidity\",\"sources\":\x7b\"../evil.sol\":\x7b\"content\":\"x\"\x7d\x7d\x7d"
      = [⟨"../evil.sol", .str "x"⟩] ∧
    pathJoin "/out" "../evil.sol" = "/evil.sol" ∧
    staysUnderRoot "/out" (pathJoin "/out" "../evil.sol") = false ∧
    saveContractFiles
        (.obj [("SourceCode",
          .str "\x7b\"language\":\"Solidity\",\"sources\":\x7b\"../evil.sol\":\x7b\"content\":\"x\"\x7d\x7d\x7d")])
        "/out"
      = .ok (["/evil.sol", "/out/metadata.json"],
             buildMetadata (.obj [("SourceCode",
               .str "\x7b\"language\":\"Solidity\",\"sources\":\x7b\"../evil.sol\":\x7b\"content\":\"x\"\x7d\x7d\x7d")])) :=
  ⟨rfl, rfl, rfl, rfl⟩

/-- Claim C8: for a chain id with no entry in the static registry (and a
resolvable credential, which the code reads first), fetch returns the
unsupported-chain failure and issues zero transport requests. -/
theorem fetch_unsupported_chain_short_circuit (chainId : Nat)
    (address k : String) (env : Env)
    (hkey : getApiKeyM env = some k)
    (hchain : chainConfig chainId = none) :
    fetchContractSource chainId address env = (.unsupportedChain chainId, []) := by
  simp [fetchContractSource, hkey, hchain]

/-- Witness for C8 at chain id 2 (not in the registry). -/
theorem fetch_unsupported_chain_short_circuit_witness :
    fetchContractSource 2 "0xabc"
        ⟨"key", none, AxiosOutcome.netErr, AxiosOutcome.netErr⟩
      = (.unsupportedChain 2, []) :=
  fetch_unsupported_chain_short_circuit 2 "0xabc" "key"
    ⟨"key", none, AxiosOutcome.netErr, AxiosOutcome.netErr⟩ rfl rfl

/-- Counterexample to claim C3 as stated: the message
`"INVALID API KEY"` matches `"invalid api key"` case-insensitively, yet
the code (which checks only the exact casings `'Invalid API Key'` and
`'invalid API key'`) classifies it as the generic API error, not
`Failure(InvalidApiKey)`. -/
theorem fetch_api_error_case_sensitive_cex :
    strContains (lowerStr "INVALID API KEY") "invalid api key" = true ∧
    (fetchContractSource 1 "0xabc"
        ⟨"k", none,
         AxiosOutcome.ok (.obj [("status", .str "0"),
                                ("message", .str "INVALID API KEY")]),
         AxiosOutcome.netErr⟩).1
      = .apiError (.str "INVALID API KEY") ∧
    (fetchContractSource 1 "0xabc"
        ⟨"k", none,
         AxiosOutcome.ok (.obj [("status", .str "0"),
                                ("message", .str "INVALID API KEY")]),
         AxiosOutcome.netErr⟩).1.isInvalidApiKey = false :=
  ⟨rfl, rfl, rfl⟩

/-- Claim C3 as amended: on a failure status, the message/result text is
classified by exact-case substring match — `'Invalid API Key'` or
`'invalid API key'` gives the invalid-key failure, else
`'Max rate limit reached'` gives the rate-limit failure, else the
generic API error carrying the raw message. -/
theorem fetch_api_failure_classification (chainId : Nat)
    (address k : String) (env : Env) (data : Json) (s : String)
    (hkey : getApiKeyM env = some k)
    (hchain : (chainConfig chainId).isNone = false)
    (hsrc : env.getsrc = .ok data)
    (hstatus : strictEqStr (jsField data "status") "1" = false)
    (hmsg : errorMsgOf data = .str s) :
    ((strContains s "Invalid API Key" || strContains s "invalid API key") = true →
        (fetchContractSource chainId address env).1 = .invalidApiKey) ∧
    ((strContains s "Invalid API Key" || strContains s "invalid API key") = false →
        strContains s "Max rate limit reached" = true →
        (fetchContractSource chainId address env).1 = .rateLimited) ∧
    ((strContains s "Invalid API Key" || strContains s "invalid API key") = false →
        strContains s "Max rate limit reached" = false →
        (fetchContractSource chainId address env).1 = .apiError (.str s)) := by
  have base : (fetchContractSource chainId address env).1
      = classifyApiFailure (.str s) := by
    simp [fetchContractSource, hkey, hchain, hsrc, hstatus, hmsg]
  refine ⟨?_, ?_, ?_⟩
  · intro h
    rw [base]
    simp [classifyApiFailure, h]
  · intro h hr
    rw [base]
    simp [classifyApiFailure, h, hr]
  · intro h hr
    rw [base]
    simp [classifyApiFailure, h, hr]

/-- Claim C1: when getsourcecode succeeds but the first result entry has
an empty or absent SourceCode field, fetch is classified by the
secondary eth_getCode probe: a probe result of exactly the string "0x"
yields the EOA failure; any other probe response, or a probe transport
failure, yields the unverified-contract failure. -/
theorem fetch_empty_source_probe_classification (chainId : Nat)
    (address k : String) (env : Env) (data : Json)
    (cfs : List (String × Json)) (rest : List Json)
    (hkey : getApiKeyM env = some k)
    (hchain : (chainConfig chainId).isNone = false)
    (hsrc : env.getsrc = .ok data)
    (hstatus : strictEqStr (jsField data "status") "1" = true)
    (hres : jsField data "result" = some (.arr (Json.obj cfs :: rest)))
    (hsc : jsField (Json.obj cfs) "SourceCode" = none ∨
           jsField (Json.obj cfs) "SourceCode" = some (.str "")) :
    (∀ d, env.getcode = .ok d → jsField d "result" = some (.str "0x") →
        (fetchContractSource chainId address env).1 = .eoaAddress address) ∧
    (∀ d, env.getcode = .ok d → strictEqStr (jsField d "result") "0x" = false →
        (fetchContractSource chainId address env).1
          = .unverifiedContract address) ∧
    (env.getcode = .netErr ∨ (∃ st tx, env.getcode = .httpErr st tx) →
        (fetchContractSource chainId address env).1
          = .unverifiedContract address) := by
  have hzero : strictEqZero (jsLength (Json.arr (Json.obj cfs :: rest))) = false := by
    simp [jsLength, strictEqZero]
    omega
  have hresTruthy : truthyOpt (some (Json.arr (Json.obj cfs :: rest))) = true := rfl
  have hcond : truthyOpt (jsField (Json.obj cfs) "SourceCode") = false := by
    cases hsc with
    | inl h => rw [h]; rfl
    | inr h => rw [h]; rfl
  refine ⟨?_, ?_, ?_⟩
  · intro d hgc hres0x
    have hic : isContract chainId address env
        = some (false, [⟨chainId, "proxy", "eth_getCode", address, some "latest", k⟩]) := by
      cases hst : strictEqStr (jsField d "status") "1" with
      | true =>
          simp [isContract, hkey, hgc, hres0x, hst,
            show truthyOpt (some (Json.str "0x")) = true from rfl,
            show strictEqStr (some (Json.str "0x")) "0x" = true from rfl]
      | false =>
          simp [isContract, hkey, hgc, hres0x, hst,
            show strictEqStr (some (Json.str "0x")) "0x" = true from rfl]
    simp [fetchContractSource, hkey, hchain, hsrc, hstatus, hres, hzero,
      hresTruthy, jsIndexZero, jsFieldE, hcond, hic]
  · intro d hgc hne
    have hic : isContract chainId address env
        = some (true, [⟨chainId, "proxy", "eth_getCode", address, some "latest", k⟩]) := by
      cases hst : strictEqStr (jsField d "status") "1" with
      | true =>
          cases htr : truthyOpt (jsField d "result") with
          | true =>
              simp [isContract, hkey, hgc, hst, htr, hne, truthyOpt_ne_empty htr]
          | false =>
              simp [isContract, hkey, hgc, hst, htr, hne]
      | false =>
          simp [isContract, hkey, hgc, hst, hne]
    simp [fetchContractSource, hkey, hchain, hsrc, hstatus, hres, hzero,
      hresTruthy, jsIndexZero, jsFieldE, hcond, hic]
  · intro hgc
    have hic : isContract chainId address env
        = some (true, [⟨chainId, "proxy", "eth_getCode", address, some "latest", k⟩]) := by
      cases hgc with
      | inl h => simp [isContract, hkey, h]
      | inr h =>
          obtain ⟨st, tx, h⟩ := h
          simp [isContract, hkey, h]
    simp [fetchContractSource, hkey, hchain, hsrc, hstatus, hres, hzero,
      hresTruthy, jsIndexZero, jsFieldE, hcond, hic]

/-- Witness for C1: a concrete environment whose getsourcecode response
has a success status and one entry with empty SourceCode, and whose
probe answers "0x" — fetch yields the EOA failure there. -/
theorem fetch_empty_source_probe_classification_witness :
    (fetchContractSource 1 "0xabc"
        ⟨"k", none,
         AxiosOutcome.ok (.obj [("status", .str "1"),
           ("result", .arr [.obj [("SourceCode", .str "")]])]),
         AxiosOutcome.ok (.obj [("status", .str "1"),
           ("result", .str "0x")])⟩).1
      = .eoaAddress "0xabc" :=
  (fetch_empty_source_probe_classification 1 "0xabc" "k"
      ⟨"k", none,
       AxiosOutcome.ok (.obj [("status", .str "1"),
         ("result", .arr [.obj [("SourceCode", .str "")]])]),
       AxiosOutcome.ok (.obj [("status", .str "1"), ("result", .str "0x")])⟩
      (.obj [("status", .str "1"),
        ("result", .arr [.obj [("SourceCode", .str "")]])])
      [("SourceCode", .str "")] []
      rfl rfl rfl rfl rfl (Or.inr rfl)).1
    (.obj [("status", .str "1"), ("result", .str "0x")]) rfl rfl

theorem setFieldList_append_of_none (fs : List (String × Json)) (k : String)
    (v : Json) (h : lookupField fs k = none) :
    setFieldList fs k v = fs ++ [(k, v)] := by
  induction fs with
  | nil => rfl
  | cons kv rest ih =>
      obtain ⟨k0, v0⟩ := kv
      cases hk : (k0 == k) with
      | true => simp [lookupField, hk] at h
      | false =>
          simp [lookupField, hk] at h
          simp [setFieldList, hk, ih h]

theorem lookupField_append_none (fs : List (String × Json)) (k : String)
    (v : Json) (h : lookupField fs k = none) :
    lookupField (fs ++ [(k, v)]) k = some v := by
  induction fs with
  | nil => simp [lookupField]
  | cons kv rest ih =>
      obtain ⟨k0, v0⟩ := kv
      cases hk : (k0 == k) with
      | true => simp [lookupField, hk] at h
      | false =>
          simp [lookupField, hk] at h ⊢
          exact ih h

theorem lookup_optEntry (kk key : String) (o : Option Json)
    (rest : List (String × Json)) (h : (kk == key) = false) :
    lookupField (optEntry kk o ++ rest) key = lookupField rest key := by
  cases o with
  | none => rfl
  | some v => simp [optEntry, lookupField, h]

/-- Claim C9: a successful fetch whose entry has Proxy flag "1" and a
non-empty Implementation address returns the entry with an attached
proxyInfo object carrying that address; the metadata object then
contains that nested proxyInfo; and for a record that is not a proxy
(no proxyInfo attached) the metadata contains no proxyInfo key. -/
theorem fetch_proxy_record_metadata (chainId : Nat)
    (address k impl : String) (env : Env) (data : Json)
    (cfs : List (String × Json)) (rest : List Json)
    (hkey : getApiKeyM env = some k)
    (hchain : (chainConfig chainId).isNone = false)
    (hsrc : env.getsrc = .ok data)
    (hstatus : strictEqStr (jsField data "status") "1" = true)
    (hres : jsField data "result" = some (.arr (Json.obj cfs :: rest)))
    (hsc : truthyOpt (jsField (Json.obj cfs) "SourceCode") = true)
    (hproxy : jsField (Json.obj cfs) "Proxy" = some (.str "1"))
    (himpl : jsField (Json.obj cfs) "Implementation" = some (.str impl))
    (himplNe : impl ≠ "")
    (hnopi : jsField (Json.obj cfs) "proxyInfo" = none) :
    (fetchContractSource chainId address env).1
      = .success (.obj (cfs ++ [("proxyInfo",
          .obj [("isProxy", .bool true), ("implementation", .str impl)])])) ∧
    jsField (Json.obj (cfs ++ [("proxyInfo",
          .obj [("isProxy", .bool true), ("implementation", .str impl)])]))
        "proxyInfo"
      = some (.obj [("isProxy", .bool true), ("implementation", .str impl)]) ∧
    jsField (buildMetadata (.obj (cfs ++ [("proxyInfo",
          .obj [("isProxy", .bool true), ("implementation", .str impl)])])))
        "proxyInfo"
      = some (.obj [("isProxy", .bool true), ("implementation", .str impl)]) ∧
    (∀ c2fs : List (String × Json),
        jsField (Json.obj c2fs) "proxyInfo" = none →
        jsField (buildMetadata (Json.obj c2fs)) "proxyInfo" = none) := by
  have hnopi' : lookupField cfs "proxyInfo" = none := hnopi
  have hlook : jsField (Json.obj (cfs ++ [("proxyInfo",
      Json.obj [("isProxy", .bool true), ("implementation", .str impl)])]))
      "proxyInfo"
      = some (.obj [("isProxy", .bool true), ("implementation", .str impl)]) :=
    lookupField_append_none cfs "proxyInfo" _ hnopi'
  refine ⟨?_, hlook, ?_, ?_⟩
  · have hzero : strictEqZero (jsLength (Json.arr (Json.obj cfs :: rest))) = false := by
      simp [jsLength, strictEqZero]
      omega
    have hresTruthy : truthyOpt (some (Json.arr (Json.obj cfs :: rest))) = true := rfl
    have himplT : jsTruthy (.str impl) = true := by
      simp [jsTruthy, himplNe]
    simp [fetchContractSource, hkey, hchain, hsrc, hstatus, hres, hzero,
      hresTruthy, jsIndexZero, jsFieldE, hsc, truthyOpt_ne_empty hsc, hproxy,
      show strictEqStr (some (Json.str "1")) "1" = true from rfl,
      jsSetField, proxyInfoOf, himpl, jsOrNullJ, jsOrJ, himplT,
      setFieldList_append_of_none cfs "proxyInfo" _ hnopi']
  · have hlook' : lookupField (cfs ++ [("proxyInfo",
        Json.obj [("isProxy", .bool true), ("implementation", .str impl)])])
        "proxyInfo"
        = some (.obj [("isProxy", .bool true), ("implementation", .str impl)]) :=
      hlook
    simp only [buildMetadata, jsField, List.append_assoc, hlook', jsTruthy,
      if_true]
    rw [lookup_optEntry _ _ _ _ (by decide), lookup_optEntry _ _ _ _ (by decide)]
    rfl
  · intro c2fs hno
    have hno' : lookupField c2fs "proxyInfo" = none := hno
    simp only [buildMetadata, jsField, List.append_assoc, hno']
    rw [lookup_optEntry _ _ _ _ (by decide), lookup_optEntry _ _ _ _ (by decide)]
    rfl

/-- Witness for C9 at a concrete proxy entry. -/
theorem fetch_proxy_record_metadata_witness :
    (fetchContractSource 1 "0xabc"
        ⟨"k", none,
         AxiosOutcome.ok (.obj [("status", .str "1"),
           ("result", .arr [.obj [("SourceCode", .str "code"),
             ("Proxy", .str "1"), ("Implementation", .str "0xDEF")]])]),
         AxiosOutcome.netErr⟩).1
      = .success (.obj [("SourceCode", .str "code"),
          ("Proxy", .str "1"), ("Implementation", .str "0xDEF"),
          ("proxyInfo", .obj [("isProxy", .bool true),
            ("implementation", .str "0xDEF")])]) :=
  (fetch_proxy_record_metadata 1 "0xabc" "k" "0xDEF"
      ⟨"k", none,
       AxiosOutcome.ok (.obj [("status", .str "1"),
         ("result", .arr [.obj [("SourceCode", .str "code"),
           ("Proxy", .str "1"), ("Implementation", .str "0xDEF")]])]),
       AxiosOutcome.netErr⟩
      (.obj [("status", .str "1"),
        ("result", .arr [.obj [("SourceCode", .str "code"),
          ("Proxy", .str "1"), ("Implementation", .str "0xDEF")]])])
      [("SourceCode", .str "code"), ("Proxy", .str "1"),
       ("Implementation", .str "0xDEF")] []
      rfl rfl rfl rfl rfl rfl rfl rfl (by decide) rfl).1

/-- Witness for C5: the malformed double-brace input degrades to the
single-file fallback with the original string, and a non-JSON input is
returned verbatim as a single file. -/
theorem decode_total_degrades_witness :
    parseSourceCode "\x7b\x7boops\x7d\x7d"
      = [⟨"Contract.sol", .str "\x7b\x7boops\x7d\x7d"⟩] ∧
    parseSourceCode "not json"
      = [⟨"Contract.sol", .str "not json"⟩] :=
  ⟨(decode_total_degrades "\x7b\x7boops\x7d\x7d").1 rfl rfl,
   (decode_total_degrades "not json").2.2.2.2 rfl⟩

/-- Witness for C3 (amended): a failure response whose message is
exactly "Max rate limit reached" is classified as the rate-limit
failure. -/
theorem fetch_api_failure_classification_witness :
    (fetchContractSource 1 "0xabc"
        ⟨"k", none,
         AxiosOutcome.ok (.obj [("status", .str "0"),
           ("message", .str "Max rate limit reached")]),
         AxiosOutcome.netErr⟩).1
      = .rateLimited :=
  (fetch_api_failure_classification 1 "0xabc" "k"
      ⟨"k", none,
       AxiosOutcome.ok (.obj [("status", .str "0"),
         ("message", .str "Max rate limit reached")]),
       AxiosOutcome.netErr⟩
      (.obj [("status", .str "0"), ("message", .str "Max rate limit reached")])
      "Max rate limit reached"
      rfl rfl rfl rfl rfl).2.1 rfl rfl
